import Mathlib

/-!
Verification development for the vts-libs tile-set storage engine.

Shallow embedding of the parts of the code relevant to the checked
properties: the tilar driver's tile-to-archive map, tile-set pasting,
the vts0-to-vts encoder (generate callback and height-map accumulator),
the delivery facade (2d meta/mask/credit synthesis, config filtering)
and reference-frame node information.
-/

namespace VtsLibs

/-- Tile identifier: (lod, x, y) with grid coordinates at the given lod. -/
structure TileId where
  lod : Nat
  x : Nat
  y : Nat
deriving DecidableEq, Repr

namespace Tilar

/-- Index of a tilar archive in the per-lod super grid (vts::Index). -/
structure Index where
  lod : Nat
  x : Nat
  y : Nat
deriving DecidableEq, Repr

/-- Index of a file inside a tilar archive (Tilar::FileIndex). -/
structure FileIndex where
  x : Nat
  y : Nat
  type : Nat
deriving DecidableEq, Repr

/-- Tilar driver options (tilardriver::Options, options.hpp).  Alignment and
base tile size take part only through the tile-index computation. -/
structure Options where
  baseTileSize : Int
  alignmentX : Int
  alignmentY : Int
  binaryOrder : Nat
  tileMask : Nat

/-- Modelled from the spec: `tileIndex(alignment, baseTileSize, tileId)` lives
in tileop.hpp, which is not among the sources.  Per the spec the
TileId-to-archive map works directly on the tile's own coordinates
(`archive = (lod, x >> B, y >> B)`, `fileIndex = (x & mask, y & mask, type)`),
so the index of a tile in the grid is the tile id itself. -/
def tileIndexOf (_o : Options) (tileId : TileId) : TileId := tileId

/-- Embeds tilardriver::Options::index (options.hpp, lines 70-82). -/
def Options.index (o : Options) (tileId : TileId) (type : Nat) :
    Index × FileIndex :=
  let i := tileIndexOf o tileId
  (⟨i.lod, i.x >>> o.binaryOrder, i.y >>> o.binaryOrder⟩,
   ⟨i.x &&& o.tileMask, i.y &&& o.tileMask, type⟩)

end Tilar

namespace Paste

/-- Abstract view of a tile set as a finite map from tile ids to payloads. -/
def TileSetMap (α : Type) := TileId → Option α

/-- Modelled from the spec: the body of pasteTileSets is not among the
sources (vts.hpp only declares it); per the spec and the declaration's own
documentation, pasting copies every tile present in the source over the
destination, so on conflict the last write wins and no warning is issued. -/
def pasteOne {α : Type} (dst src : TileSetMap α) : TileSetMap α :=
  fun t =>
    match src t with
    | some v => some v
    | none => dst t

/-- Modelled from the spec: pasteTileSets applies the sources in command-line
order, each one pasted over the accumulated destination. -/
def pasteTileSets {α : Type} (dst : TileSetMap α) (srcs : List (TileSetMap α)) :
    TileSetMap α :=
  srcs.foldl pasteOne dst

end Paste

namespace Enc

/-- Result of the generate callback (vts::Encoder::TileResult). The data
constructor stands for a produced tile; tile payload construction itself is
external image/geometry work. -/
inductive TileResult
  | noData
  | noDataYet
  | data
deriving DecidableEq, Repr

/-- Decides whether tile a is an ancestor of tile d or d itself. -/
def isAncestorOrSelf (a d : TileId) : Bool :=
  decide (a.lod ≤ d.lod ∧ a.x = d.x >>> (d.lod - a.lod) ∧
    a.y = d.y >>> (d.lod - a.lod))

/-- The vts0 tile index restricted to what the encoder consumes: the set of
material tiles (tiles that carry data). -/
structure TileIndex0 where
  tiles : List TileId

/-- Existence test of the source tile index ti_ (a tile exists iff it is
material). -/
def existsTile (ti : TileIndex0) (t : TileId) : Bool :=
  decide (t ∈ ti.tiles)

/-- Modelled from the spec: vts0::TileIndex::makeFull and makeComplete
(tileindex.cpp) are not among the sources.  The combined index cti_ built in
the Encoder constructor is modelled by its documented meaning at the call
site ("neither this nor any child tile exists"): a tile is set iff the
subtree under it contains a material tile. -/
def ctiExists (ti : TileIndex0) (t : TileId) : Bool :=
  ti.tiles.any (fun m => isAncestorOrSelf t m)

/-- Embeds Encoder::generate (vts02vts.cpp, lines 590-637): prune when the
completed index has no bit (no data anywhere below), defer when the tile
itself is not material, otherwise produce the converted tile. -/
def generate (ti : TileIndex0) (t : TileId) : TileResult :=
  if !(ctiExists ti t) then .noData
  else if !(existsTile ti t) then .noDataYet
  else .data

/-- The four children of a tile, child index dy*2+dx. -/
def children4 (t : TileId) : List TileId :=
  [⟨t.lod + 1, 2 * t.x, 2 * t.y⟩, ⟨t.lod + 1, 2 * t.x + 1, 2 * t.y⟩,
   ⟨t.lod + 1, 2 * t.x, 2 * t.y + 1⟩, ⟨t.lod + 1, 2 * t.x + 1, 2 * t.y + 1⟩]

/-- Parent tile. -/
def parentOf (t : TileId) : TileId :=
  ⟨t.lod - 1, t.x / 2, t.y / 2⟩

/-- Modelled from the spec: the encoder traversal loop (encoder.cpp) is not
among the sources; per the spec it walks depth-first pre-order from the root
and descends into the children only when the parent's generate call did not
return noData.  Fuel bounds the descent by the remaining lod budget. -/
def traverse (ti : TileIndex0) : Nat → TileId → List TileId
  | 0, t => [t]
  | fuel + 1, t =>
    t :: (if generate ti t = .noData then []
          else (children4 t).flatMap (fun c => traverse ti fuel c))

end Enc

namespace Dlv

/-- Error kinds surfaced by delivery reads; nullDeref marks the undefined
behaviour of dereferencing a null stream pointer. -/
inductive VtsError
  | noSuchFile
  | storageError
  | nullDeref
deriving DecidableEq, Repr

/-- Modelled from the spec: the FileFlavor enumeration is not among the
sources; the spec distinguishes the debug flavor from plain reads. -/
inductive FileFlavor
  | raw
  | debug
deriving DecidableEq, Repr

/-- Named tile-set files (storage File tokens). -/
inductive File
  | config
  | tileIndexFile
  | registryFile
deriving DecidableEq, Repr

/-- Per-tile files (TileFile tokens used by Delivery::input). -/
inductive TileFile
  | mesh
  | atlas
  | navtile
  | meta
  | meta2d
  | mask
  | credits
deriving DecidableEq, Repr

/-- Camera position block of the tile-set config (spec section 6.1). -/
structure Position where
  ptype : Nat
  heightMode : Nat
  posX : Int
  posY : Int
  posZ : Int
  orientA : Int
  orientB : Int
  orientC : Int
  verticalExtent : Int
  verticalFov : Int
deriving DecidableEq, Repr

/-- Tile-set properties restricted to the recognised config keys of spec
section 6.1; driverOptions models the driver-specific boost::any block. -/
structure TileSetProps where
  id : Nat
  referenceFrame : Nat
  lodRangeMin : Nat
  lodRangeMax : Nat
  position : Position
  credits : Finset Nat
  boundLayers : Finset Nat
  driverOptions : Option Nat
deriving DecidableEq

/-- Metatile stream as consumed by delivery: the credit ids stored in the
metatile and the stream's stat lastModified. -/
structure MetaStream where
  creditIds : List Nat
  lastModified : Int
deriving DecidableEq, Repr

/-- Mesh stream stat as consumed by the mask synthesiser. -/
structure MeshStream where
  lastModified : Int
deriving DecidableEq, Repr

/-- Streams returned by delivery reads, carrying their semantic content
(PNG and JSON serialisation is external image-codec work). -/
inductive StreamV
  | configS (props : TileSetProps)
  | meta2dPng (t : TileId) (lastModified : Int)
  | emptyDebugMask
  | maskPng (debugStyle : Bool) (lastModified : Int)
  | creditsS (ids : Finset Nat) (lastModified : Int)
  | debugMetaJson (t : TileId)
  | rawFileS (f : File)
  | rawTileS (t : TileId) (f : TileFile)
deriving DecidableEq

/-- Driver view consumed by Delivery: which streams exist and their content. -/
structure DriverM where
  metaStream : TileId → Option MetaStream
  meshStream : TileId → Option MeshStream
  configProps : Option TileSetProps
  fileStored : File → Bool
  tileStored : TileId → TileFile → Bool
  driverLastModified : Int

/-- Modelled from the spec: Driver::input is not among the sources; per the
driver abstraction and the error-propagation policy, a missing key throws
NoSuchFile in the plain variant and yields a null stream with
NullWhenNotFound.  The noSuchFile switch selects the variant as at the call
sites. -/
def DriverM.fetchMeta (d : DriverM) (t : TileId) (noSuchFile : Bool) :
    Except VtsError (Option MetaStream) :=
  if noSuchFile then
    match d.metaStream t with
    | some s => .ok (some s)
    | none => .error .noSuchFile
  else .ok (d.metaStream t)

/-- Modelled from the spec: mesh variant of the driver input, as fetchMeta. -/
def DriverM.fetchMesh (d : DriverM) (t : TileId) (noSuchFile : Bool) :
    Except VtsError (Option MeshStream) :=
  if noSuchFile then
    match d.meshStream t with
    | some s => .ok (some s)
    | none => .error .noSuchFile
  else .ok (d.meshStream t)

/-- Modelled from the spec: 2d.hpp is not among the sources; binary order of
the synthesised 2d credit tiles (CreditTile::binaryOrder). -/
def creditBinaryOrder : Nat := 8

/-- Modelled from the spec: binary order of the synthesised 2d meta tiles
(Meta2d::binaryOrder). -/
def meta2dBinaryOrder : Nat := 8

/-- Modelled from the spec: a tile id addresses a synthesised 2d tile of
binary order bo only when aligned to the bo grid. -/
def isAligned (t : TileId) (bo : Nat) : Bool :=
  decide (t.x % 2 ^ bo = 0 ∧ t.y % 2 ^ bo = 0)

/-- Modelled from the spec: Meta2d::isMetaId. -/
def isMetaId (t : TileId) : Bool := isAligned t meta2dBinaryOrder

/-- Modelled from the spec: CreditTile::isCreditId. -/
def isCreditId (t : TileId) : Bool := isAligned t creditBinaryOrder

/-- Modelled from the spec: CreditTile::creditsId, the credit-tile-aligned id
of the region containing the tile. -/
def creditsIdOf (t : TileId) : TileId :=
  ⟨t.lod, t.x - t.x % 2 ^ creditBinaryOrder, t.y - t.y % 2 ^ creditBinaryOrder⟩

/-- Embeds meta2d (delivery.cpp, lines 55-75): invalid 2d-meta ids follow the
not-found policy, valid ones produce the mask png generated from the tile
index, stamped with the driver's lastModified. -/
def meta2dOp (d : DriverM) (t : TileId) (noSuchFile : Bool) :
    Except VtsError (Option StreamV) :=
  if !(isMetaId t) then
    if noSuchFile then .error .noSuchFile else .ok none
  else .ok (some (.meta2dPng t d.driverLastModified))

/-- Embeds mask (delivery.cpp, lines 83-116): the mesh stream is fetched with
the plain input only outside debug flavor; a missing mesh yields the
transparent placeholder in debug flavor and the not-found outcome otherwise. -/
def maskOp (d : DriverM) (t : TileId) (flavor : FileFlavor) (noSuchFile : Bool) :
    Except VtsError (Option StreamV) :=
  let dbg : Bool := decide (flavor = FileFlavor.debug)
  match d.fetchMesh t (noSuchFile && !dbg) with
  | .error e => .error e
  | .ok none => if dbg then .ok (some .emptyDebugMask) else .ok none
  | .ok (some ms) => .ok (some (.maskPng dbg ms.lastModified))

/-- Embeds meta (delivery.cpp, lines 118-138): outside debug flavor the
stored metatile stream is passed through; in debug flavor a debug node JSON
is synthesised. -/
def metaOp (d : DriverM) (t : TileId) (flavor : FileFlavor) (noSuchFile : Bool) :
    Except VtsError (Option StreamV) :=
  if flavor ≠ FileFlavor.debug then
    match d.fetchMeta t noSuchFile with
    | .error e => .error e
    | .ok none => .ok none
    | .ok (some _) => .ok (some (.rawTileS t TileFile.meta))
  else .ok (some (.debugMetaJson t))

/-- Inserts all ids of a loaded metatile into the credit id set
(loadCreditsFromMetaTile's effect on the set). -/
def insertAll (l : List Nat) (s : Finset Nat) : Finset Nat :=
  l.foldl (fun acc c => insert c acc) s

/-- Row-major list of candidate metatile ids covering the credit-tile region
(the two nested loops of creditsFromMetatiles, j outer over rows). -/
def metaIds (creditsId : TileId) (count skip : Nat) : List TileId :=
  (List.range count).flatMap (fun j =>
    (List.range count).map (fun i =>
      ⟨creditsId.lod, creditsId.x + i * skip, creditsId.y + j * skip⟩))

/-- Embeds the loop body of creditsFromMetatiles (delivery.cpp, lines
158-179): skip unindexed metatiles, fail or bail out on a missing stream,
merge loaded credits and stat times, and return early once maxCount credits
have been collected. -/
def cfmLoop (d : DriverM) (indexMeta : TileId → Bool) (noSuchFile : Bool)
    (maxCount : Nat) :
    List TileId → Finset Nat → Int → Except VtsError (Bool × Finset Nat × Int)
  | [], credits, lm => .ok (true, credits, lm)
  | id :: rest, credits, lm =>
    if indexMeta id then
      match d.fetchMeta id noSuchFile with
      | .error e => .error e
      | .ok none => .ok (false, credits, lm)
      | .ok (some s) =>
        let credits2 := insertAll s.creditIds credits
        let lm2 := if lm < s.lastModified then s.lastModified else lm
        if maxCount ≤ credits2.card then .ok (true, credits2, lm2)
        else cfmLoop d indexMeta noSuchFile maxCount rest credits2 lm2
    else cfmLoop d indexMeta noSuchFile maxCount rest credits lm

/-- Embeds creditsFromMetatiles (delivery.cpp, lines 140-182): refuse meta
binary orders above the credit-tile order, then scan the region's metatiles. -/
def creditsFromMetatiles (d : DriverM) (indexMeta : TileId → Bool)
    (metaOrder : Nat) (creditsId : TileId) (noSuchFile : Bool) (maxCount : Nat)
    (lm : Int) : Except VtsError (Bool × Finset Nat × Int) :=
  if creditBinaryOrder < metaOrder then .error .storageError
  else
    cfmLoop d indexMeta noSuchFile maxCount
      (metaIds creditsId (2 ^ (creditBinaryOrder - metaOrder)) (2 ^ metaOrder))
      ∅ lm

/-- Modelled from the spec: the credit registry (registry::system) is an
out-of-scope read-only lookup; extract keeps the credit ids the registry
knows (delivery.cpp, lines 202-211). -/
def extractKnown (reg : Nat → Bool) (s : Finset Nat) : Finset Nat :=
  s.filter (fun c => reg c = true)

/-- Embeds credits (delivery.cpp, lines 184-242): invalid credit ids follow
the not-found policy; with at most one credit in the properties the credit
set comes straight from them; otherwise the region's metatiles are scanned
with early exit, and the driver's lastModified backs up a missing stat. -/
def creditsOp (d : DriverM) (indexMeta : TileId → Bool) (metaOrder : Nat)
    (reg : Nat → Bool) (props : TileSetProps) (tileId : TileId)
    (noSuchFile : Bool) : Except VtsError (Option StreamV) :=
  if !(isCreditId tileId) then
    if noSuchFile then .error .noSuchFile else .ok none
  else
    if props.credits.card ≤ 1 then
      .ok (some (.creditsS (extractKnown reg props.credits) (-1)))
    else
      match creditsFromMetatiles d indexMeta metaOrder (creditsIdOf tileId)
          noSuchFile props.credits.card (-1) with
      | .error e => .error e
      | .ok (false, _, _) => .ok none
      | .ok (true, collected, lm) =>
        let lm2 := if lm ≤ 0 then d.driverLastModified else lm
        .ok (some (.creditsS (extractKnown reg collected) lm2))

/-- Modelled from the spec: tileset::loadConfig (config.cpp) is not among
the sources; per spec section 6.1 the config stream is a faithful key-value
serialisation of the properties, so the stream is identified with the
properties it parses to. -/
def loadConfig (c : TileSetProps) : TileSetProps := c

/-- Modelled from the spec: tileset::saveConfig, inverse of loadConfig. -/
def saveConfig (c : TileSetProps) : TileSetProps := c

/-- Property transform applied by filterConfig: parse, clear the
driver-specific options, re-serialise. -/
def filterConfigProps (c : TileSetProps) : TileSetProps :=
  saveConfig { loadConfig c with driverOptions := none }

/-- Embeds filterConfig (delivery.cpp, lines 244-253).  The source calls
raw->get() on the stream it is given; a null stream argument is therefore
dereferenced, modelled as the nullDeref outcome. -/
def filterConfig (raw : Option TileSetProps) : Except VtsError (Option StreamV) :=
  match raw with
  | none => .error .nullDeref
  | some c => .ok (some (.configS (filterConfigProps c)))

/-- Modelled from the spec: plain driver input for the config key; a missing
config throws NoSuchFile in this variant. -/
def DriverM.inputConfigT (d : DriverM) : Except VtsError TileSetProps :=
  match d.configProps with
  | some p => .ok p
  | none => .error .noSuchFile

/-- Modelled from the spec: plain driver input for the remaining file keys. -/
def DriverM.inputFileT (d : DriverM) (f : File) : Except VtsError StreamV :=
  if d.fileStored f then .ok (.rawFileS f) else .error .noSuchFile

/-- Embeds Delivery::input(File) (delivery.cpp, lines 268-276): the config
stream is filtered, everything else is passed through. -/
def deliveryInputFile (d : DriverM) (f : File) : Except VtsError (Option StreamV) :=
  match f with
  | .config =>
    match d.inputConfigT with
    | .error e => .error e
    | .ok c => filterConfig (some c)
  | _ =>
    match d.inputFileT f with
    | .error e => .error e
    | .ok s => .ok (some s)

/-- Embeds Delivery::input(File, NullWhenNotFound) (delivery.cpp, lines
278-286): note that the config branch feeds the possibly-null driver stream
straight into filterConfig. -/
def deliveryInputFileN (d : DriverM) (f : File) : Except VtsError (Option StreamV) :=
  match f with
  | .config => filterConfig d.configProps
  | _ => .ok (if d.fileStored f then some (.rawFileS f) else none)

/-- Delivery state: driver, tile index meta predicate with its binary order,
registry view and loaded properties. -/
structure DeliveryM where
  driver : DriverM
  indexMeta : TileId → Bool
  metaOrder : Nat
  reg : Nat → Bool
  props : TileSetProps

/-- Embeds Delivery::input(TileId, TileFile, FileFlavor) (delivery.cpp,
lines 288-307): synthesised tile kinds dispatch with noSuchFile set. -/
def deliveryInputTile (dl : DeliveryM) (t : TileId) (ty : TileFile)
    (flavor : FileFlavor) : Except VtsError (Option StreamV) :=
  match ty with
  | .meta2d => meta2dOp dl.driver t true
  | .mask => maskOp dl.driver t flavor true
  | .credits => creditsOp dl.driver dl.indexMeta dl.metaOrder dl.reg dl.props t true
  | .meta => metaOp dl.driver t flavor true
  | _ =>
    if dl.driver.tileStored t ty then .ok (some (.rawTileS t ty))
    else .error .noSuchFile

/-- Embeds Delivery::input(TileId, TileFile, FileFlavor, NullWhenNotFound)
(delivery.cpp, lines 309-329). -/
def deliveryInputTileN (dl : DeliveryM) (t : TileId) (ty : TileFile)
    (flavor : FileFlavor) : Except VtsError (Option StreamV) :=
  match ty with
  | .meta2d => meta2dOp dl.driver t false
  | .mask => maskOp dl.driver t flavor false
  | .credits => creditsOp dl.driver dl.indexMeta dl.metaOrder dl.reg dl.props t false
  | .meta => metaOp dl.driver t flavor false
  | _ =>
    .ok (if dl.driver.tileStored t ty then some (.rawTileS t ty) else none)

/-- Credit set stored in the metatile at the given id (empty when absent). -/
def metaCreditsOf (d : DriverM) (t : TileId) : Finset Nat :=
  match d.metaStream t with
  | some s => s.creditIds.toFinset
  | none => ∅

/-- Union of the credit sets of the indexed metatiles among the given ids;
the credit set the region scan is meant to collect. -/
def unionStored (d : DriverM) (indexMeta : TileId → Bool) :
    List TileId → Finset Nat
  | [] => ∅
  | id :: rest =>
    (if indexMeta id then metaCreditsOf d id else ∅) ∪
      unionStored d indexMeta rest

end Dlv

deriving instance DecidableEq for Except

namespace Hm

/-- Pixel coordinate inside a height-map tile raster. -/
abbrev Pixel := Nat × Nat

/-- Rasterised height sample: pixel hit by the scan conversion and the
interpolated height, as handed to the lambda of generateHeightMap. -/
structure Sample where
  px : Pixel
  z : ℚ
deriving DecidableEq

/-- Height-map tile raster; invalid pixels carry the top element, the
embedding of the +infinity sentinel of the float raster. -/
def Grid := Pixel → WithTop ℚ

/-- Freshly allocated tile raster: every pixel invalid. -/
def freshGrid : Grid := fun _ => ⊤

/-- Embeds the rasterisation op of Encoder::generateHeightMap (vts02vts.cpp,
lines 581-587): the stored value drops to the sample height when that is
smaller. -/
def rasterPoint (hm : Grid) (s : Sample) : Grid :=
  fun p =>
    if p = s.px ∧ (s.z : WithTop ℚ) < hm p then (s.z : WithTop ℚ) else hm p

/-- Folding a mesh's rasterised samples into the tile raster (the
rasterizeMesh call of generateHeightMap; scan conversion itself is external
imgproc work, so a mesh is represented by its sample list). -/
def rasterizeSamples (hm : Grid) (samples : List Sample) : Grid :=
  samples.foldl rasterPoint hm

/-- HeightMap::Accumulator restricted to its mapping from tile ids to
lazily allocated tile rasters. -/
structure Accumulator where
  tiles : TileId → Option Grid

/-- Accumulator::tile: lazily allocates a fresh raster. -/
def Accumulator.tile (a : Accumulator) (id : TileId) : Grid :=
  (a.tiles id).getD freshGrid

/-- Embeds Encoder::generateHeightMap (vts02vts.cpp, lines 567-588) for one
mesh: fetch-or-allocate the tile raster and rasterise the mesh into it. -/
def generateHeightMap (a : Accumulator) (id : TileId) (samples : List Sample) :
    Accumulator :=
  ⟨fun i =>
    if i = id then some (rasterizeSamples (a.tile id) samples) else a.tiles i⟩

/-- A sequence of generateHeightMap calls rasterising several meshes into
the same tile. -/
def generateHeightMapSeq (a : Accumulator) (id : TileId)
    (meshes : List (List Sample)) : Accumulator :=
  meshes.foldl (fun acc ms => generateHeightMap acc id ms) a

/-- Heights rasterised onto a pixel by a sample list, in order. -/
def heightsAt (p : Pixel) (samples : List Sample) : List ℚ :=
  samples.filterMap (fun s => if s.px = p then some s.z else none)

/-- Minimum of a previous value and a list of heights. -/
def minFold (v : WithTop ℚ) (l : List ℚ) : WithTop ℚ :=
  l.foldl (fun acc z => min acc (z : WithTop ℚ)) v

end Hm

namespace NI

/-- Planar extents in the subtree SRS (math::Extents2 with rational
coordinates standing in for the doubles). -/
structure Extents2 where
  x1 : ℚ
  x2 : ℚ
  y1 : ℚ
  y2 : ℚ
deriving DecidableEq

/-- Point membership in extents. -/
def memE (p : ℚ × ℚ) (e : Extents2) : Prop :=
  e.x1 ≤ p.1 ∧ p.1 ≤ e.x2 ∧ e.y1 ≤ p.2 ∧ p.2 ≤ e.y2

/-- Nonempty (well-formed) extents. -/
def nonemptyE (e : Extents2) : Prop := e.x1 ≤ e.x2 ∧ e.y1 ≤ e.y2

/-- Coordinate test for extents e lying completely outside extents v. -/
def outsideE (v e : Extents2) : Prop :=
  e.x2 < v.x1 ∨ v.x2 < e.x1 ∨ e.y2 < v.y1 ∨ v.y2 < e.y1

/-- Coordinate test for extents e lying completely inside extents v. -/
def insideE (v e : Extents2) : Prop :=
  v.x1 ≤ e.x1 ∧ e.x2 ≤ v.x2 ∧ v.y1 ≤ e.y1 ∧ e.y2 ≤ v.y2

instance (p : ℚ × ℚ) (e : Extents2) : Decidable (memE p e) := by
  unfold memE; infer_instance

instance (e : Extents2) : Decidable (nonemptyE e) := by
  unfold nonemptyE; infer_instance

instance (v e : Extents2) : Decidable (outsideE v e) := by
  unfold outsideE; infer_instance

instance (v e : Extents2) : Decidable (insideE v e) := by
  unfold insideE; infer_instance

/-- Boost tribool values returned by RFTreeSubtree::valid. -/
inductive Tribool
  | tfalse
  | ttrue
  | indet
deriving DecidableEq, Repr

/-- Modelled from the spec: the body of RFTreeSubtree::valid (nodeinfo.cpp)
is not among the sources; per its declaration comment validity is false when
the node extents lie completely outside the subtree's valid area, true when
completely inside, and indeterminate when only partially inside. -/
def subtreeValid (validExtents nodeExtents : Extents2) : Tribool :=
  if outsideE validExtents nodeExtents then .tfalse
  else if insideE validExtents nodeExtents then .ttrue
  else .indet

/-- Validity state of a NodeInfo: the valid() accessor and the
partly-inside flag (the accessor named partial in the source). -/
structure NodeInfoState where
  validFlag : Bool
  partFlag : Bool
deriving DecidableEq, Repr

/-- Modelled from the spec: the NodeInfo constructor (nodeinfo.cpp) derives
the node state from subtree validity; a node completely outside the valid
bounds is marked invalid, an indeterminate node is valid with the
partly-inside flag set, a node completely inside is a full valid node. -/
def mkNodeInfoState (v e : Extents2) : NodeInfoState :=
  match subtreeValid v e with
  | .tfalse => ⟨false, false⟩
  | .ttrue => ⟨true, false⟩
  | .indet => ⟨true, true⟩

/-- Content of a reference-frame node (RFNode restricted to id and srs). -/
structure RFNodeData where
  idLod : Nat
  idX : Nat
  idY : Nat
  srs : Nat
deriving DecidableEq, Repr

/-- Reference-frame node arena: nodes live in the frame and are referred to
by address, modelling the C++ `const RFNode *root_` pointer. -/
structure RFArena where
  node : Nat → RFNodeData

/-- Subtree handle (RFTreeSubtree): holds the address of the root node. -/
structure RFTreeSubtree where
  rootAddr : Nat
deriving DecidableEq, Repr

/-- Embeds RFTreeSubtree::operator== (nodeinfo.hpp, lines 22-24): compares
the root node pointers, not the node contents. -/
def subtreeBeq (a b : RFTreeSubtree) : Bool :=
  decide (a.rootAddr = b.rootAddr)

/-- NodeInfo restricted to what compatible consumes: its subtree handle. -/
structure NodeInfoC where
  subtree : RFTreeSubtree
deriving DecidableEq, Repr

/-- Embeds compatible (nodeinfo.hpp, lines 151-154). -/
def compatible (n1 n2 : NodeInfoC) : Bool :=
  subtreeBeq n1.subtree n2.subtree

end NI

namespace Fix

/-- Concrete position fixture. -/
def pos0 : Dlv.Position := ⟨0, 0, 0, 0, 0, 0, 0, 0, 0, 0⟩

/-- Concrete properties with a single credit. -/
def props1 : Dlv.TileSetProps := ⟨7, 1, 0, 5, pos0, {5}, ∅, some 3⟩

/-- Concrete properties with two credits. -/
def props2 : Dlv.TileSetProps := ⟨7, 1, 0, 5, pos0, {1, 2}, ∅, some 3⟩

/-- Driver fixture with every metatile stored carrying credits 1 and 2. -/
def drv1 : Dlv.DriverM :=
  ⟨fun _ => some ⟨[1, 2], 5⟩, fun _ => none, none, fun _ => false,
   fun _ _ => false, 0⟩

/-- Driver fixture with nothing stored at all. -/
def drvEmpty : Dlv.DriverM :=
  ⟨fun _ => none, fun _ => none, none, fun _ => false, fun _ _ => false, 0⟩

/-- Driver fixture whose config parses to props2. -/
def drvCfg : Dlv.DriverM :=
  ⟨fun _ => none, fun _ => none, some props2, fun _ => false,
   fun _ _ => false, 0⟩

/-- Delivery fixture over the empty driver. -/
def dlEmpty : Dlv.DeliveryM := ⟨drvEmpty, fun _ => false, 8, fun _ => false, props1⟩

end Fix

namespace Enc

theorem mem_children4 {c t : TileId} (h : c ∈ children4 t) :
    c.lod = t.lod + 1 ∧ parentOf c = t := by
  cases t with
  | mk lod x y =>
    simp only [children4, List.mem_cons, List.mem_singleton,
      List.not_mem_nil, or_false] at h
    rcases h with h | h | h | h <;>
      (subst h; refine ⟨rfl, ?_⟩; simp only [parentOf]; congr 1 <;> omega)

theorem traverse_lod (ti : TileIndex0) :
    ∀ fuel t c, c ∈ traverse ti fuel t → c = t ∨ t.lod < c.lod := by
  intro fuel
  induction fuel with
  | zero => intro t c h; simp [traverse] at h; exact Or.inl h
  | succ f ih =>
    intro t c h
    simp only [traverse, List.mem_cons] at h
    rcases h with h | h
    · exact Or.inl h
    · by_cases hg : generate ti t = .noData
      · simp [hg] at h
      · simp only [if_neg hg, List.mem_flatMap] at h
        obtain ⟨k, hk, hc⟩ := h
        have hkl := (mem_children4 hk).1
        rcases ih k c hc with rfl | hlt
        · omega
        · omega

theorem traverse_parent_not_noData (ti : TileIndex0) :
    ∀ fuel t c, c ∈ traverse ti fuel t → t.lod < c.lod →
      generate ti (parentOf c) ≠ .noData := by
  intro fuel
  induction fuel with
  | zero =>
    intro t c h hlt
    simp [traverse] at h
    subst h; omega
  | succ f ih =>
    intro t c h hlt
    simp only [traverse, List.mem_cons] at h
    rcases h with rfl | h
    · omega
    · by_cases hg : generate ti t = .noData
      · simp [hg] at h
      · simp only [if_neg hg, List.mem_flatMap] at h
        obtain ⟨k, hk, hc⟩ := h
        obtain ⟨hkl, hkp⟩ := mem_children4 hk
        rcases traverse_lod ti f k c hc with rfl | hlt'
        · rw [hkp]; exact hg
        · exact ih k c hc hlt'

end Enc

namespace Dlv

theorem insertAll_eq (l : List Nat) (s : Finset Nat) :
    insertAll l s = s ∪ l.toFinset := by
  induction l generalizing s with
  | nil => simp [insertAll]
  | cons c rest ih =>
    have h1 : insertAll (c :: rest) s = insertAll rest (insert c s) := rfl
    rw [h1, ih (insert c s), List.toFinset_cons, Finset.insert_union,
      Finset.union_insert]

theorem cfmLoop_ok_true (d : DriverM) (indexMeta : TileId → Bool)
    (noSuchFile : Bool) (maxCount : Nat) :
    ∀ (ids : List TileId) (credits : Finset Nat) (lm : Int) (C : Finset Nat)
      (lm2 : Int),
      cfmLoop d indexMeta noSuchFile maxCount ids credits lm =
        .ok (true, C, lm2) →
      ∃ pre post, ids = pre ++ post ∧
        C = credits ∪ unionStored d indexMeta pre ∧
        (post = [] ∨ maxCount ≤ C.card) := by
  intro ids
  induction ids with
  | nil =>
    intro credits lm C lm2 h
    simp only [cfmLoop, Except.ok.injEq, Prod.mk.injEq, true_and] at h
    refine ⟨[], [], rfl, ?_, Or.inl rfl⟩
    rw [← h.1]
    simp [unionStored]
  | cons id rest ih =>
    intro credits lm C lm2 h
    simp only [cfmLoop] at h
    by_cases hidx : indexMeta id = true
    · rw [if_pos hidx] at h
      cases hms : d.metaStream id with
      | none =>
        have hfetch : d.fetchMeta id noSuchFile =
            (if noSuchFile then .error .noSuchFile else .ok none) := by
          simp [DriverM.fetchMeta, hms]
        rw [hfetch] at h
        cases noSuchFile <;> simp at h
      | some s =>
        have hfetch : d.fetchMeta id noSuchFile = .ok (some s) := by
          simp [DriverM.fetchMeta, hms]
        rw [hfetch] at h
        simp only at h
        by_cases hcard : maxCount ≤ (insertAll s.creditIds credits).card
        · rw [if_pos hcard] at h
          simp only [Except.ok.injEq, Prod.mk.injEq, true_and] at h
          refine ⟨[id], rest, rfl, ?_, Or.inr ?_⟩
          · rw [← h.1, insertAll_eq]
            simp [unionStored, hidx, metaCreditsOf, hms]
          · rw [← h.1]; exact hcard
        · rw [if_neg hcard] at h
          obtain ⟨pre, post, heq, hC, hdisj⟩ := ih _ _ C lm2 h
          refine ⟨id :: pre, post, by rw [heq]; rfl, ?_, hdisj⟩
          rw [hC, insertAll_eq]
          simp [unionStored, hidx, metaCreditsOf, hms, Finset.union_assoc]
    · rw [if_neg hidx] at h
      obtain ⟨pre, post, heq, hC, hdisj⟩ := ih _ _ C lm2 h
      refine ⟨id :: pre, post, by rw [heq]; rfl, ?_, hdisj⟩
      rw [hC]
      simp [unionStored, hidx]

end Dlv

/-- C3: in the encoder traversal a child tile is generated only if its
parent's generate call did not return noData; the generate callback returns
noData exactly when neither the tile nor any of its descendants carries data
(the whole subtree is pruned) and returns noDataYet exactly when the tile
itself has no data but some descendant does (descent continues). -/
theorem encoder_generate_contract (ti : Enc.TileIndex0) (t : TileId)
    (fuel : Nat) (root c : TileId) :
    (Enc.generate ti t = .noData ↔
      ¬ ∃ m ∈ ti.tiles, Enc.isAncestorOrSelf t m = true) ∧
    (Enc.generate ti t = .noDataYet ↔
      (Enc.existsTile ti t = false ∧
        ∃ m ∈ ti.tiles, m ≠ t ∧ Enc.isAncestorOrSelf t m = true)) ∧
    (c ∈ Enc.traverse ti fuel root → root.lod < c.lod →
      Enc.generate ti (Enc.parentOf c) ≠ .noData) := by
  have hcti : Enc.ctiExists ti t = true ↔
      ∃ m ∈ ti.tiles, Enc.isAncestorOrSelf t m = true := by
    simp [Enc.ctiExists, List.any_eq_true]
  have hex : Enc.existsTile ti t = true ↔ t ∈ ti.tiles := by
    simp [Enc.existsTile]
  refine ⟨?_, ?_, Enc.traverse_parent_not_noData ti fuel root c⟩
  · constructor
    · intro h hm
      rw [← hcti] at hm
      simp [Enc.generate, hm] at h
      revert h
      split <;> simp
    · intro hm
      have : Enc.ctiExists ti t = false := by
        cases hc : Enc.ctiExists ti t
        · rfl
        · exact absurd (hcti.mp hc) hm
      simp [Enc.generate, this]
  · constructor
    · intro h
      have hc : Enc.ctiExists ti t = true := by
        cases hc : Enc.ctiExists ti t
        · simp [Enc.generate, hc] at h
        · rfl
      have he : Enc.existsTile ti t = false := by
        cases he : Enc.existsTile ti t
        · rfl
        · simp [Enc.generate, hc, he] at h
      obtain ⟨m, hmem, hanc⟩ := hcti.mp hc
      refine ⟨he, m, hmem, ?_, hanc⟩
      rintro rfl
      exact absurd (hex.mpr hmem) (by simp [he])
    · rintro ⟨he, m, hmem, _, hanc⟩
      have hc : Enc.ctiExists ti t = true := hcti.mpr ⟨m, hmem, hanc⟩
      simp [Enc.generate, hc, he]

/-- Witness for C3: a concrete material set where the root has no data but a
descendant does (noDataYet), and a traversed child whose parent did not
return noData. -/
theorem encoder_generate_contract_witness :
    Enc.generate ⟨[⟨1, 1, 1⟩]⟩ ⟨0, 0, 0⟩ = .noDataYet ∧
    (⟨1, 1, 1⟩ : TileId) ∈ Enc.traverse ⟨[⟨1, 1, 1⟩]⟩ 2 ⟨0, 0, 0⟩ ∧
    Enc.generate ⟨[⟨1, 1, 1⟩]⟩ (Enc.parentOf ⟨1, 1, 1⟩) ≠ .noData := by
  refine ⟨?_, by decide, ?_⟩
  · exact (encoder_generate_contract ⟨[⟨1, 1, 1⟩]⟩ ⟨0, 0, 0⟩ 2 ⟨0, 0, 0⟩
      ⟨1, 1, 1⟩).2.1.mpr (by decide)
  · exact (encoder_generate_contract ⟨[⟨1, 1, 1⟩]⟩ ⟨0, 0, 0⟩ 2 ⟨0, 0, 0⟩
      ⟨1, 1, 1⟩).2.2 (by decide) (by decide)

/-- C1: for every TileId (lod, x, y) and file type, Options::index maps the
tile to archive index (lod, x >> binaryOrder, y >> binaryOrder) and in-archive
file index (x & tileMask, y & tileMask, type) where
tileMask = (1 << binaryOrder) - 1; arithmetically the archive coordinate is
the quotient and the file coordinate the remainder by 2 ^ binaryOrder, so the
tile coordinate is reconstructed from the pair. -/
theorem tilar_options_index_spec (o : Tilar.Options) (t : TileId) (ty : Nat)
    (h : o.tileMask = 2 ^ o.binaryOrder - 1) :
    (o.index t ty).1 = ⟨t.lod, t.x / 2 ^ o.binaryOrder, t.y / 2 ^ o.binaryOrder⟩ ∧
    (o.index t ty).2 = ⟨t.x % 2 ^ o.binaryOrder, t.y % 2 ^ o.binaryOrder, ty⟩ ∧
    t.x = (o.index t ty).1.x * 2 ^ o.binaryOrder + (o.index t ty).2.x ∧
    t.y = (o.index t ty).1.y * 2 ^ o.binaryOrder + (o.index t ty).2.y := by
  have hx : t.x &&& o.tileMask = t.x % 2 ^ o.binaryOrder := by
    rw [h]; exact Nat.and_pow_two_sub_one_eq_mod t.x o.binaryOrder
  have hy : t.y &&& o.tileMask = t.y % 2 ^ o.binaryOrder := by
    rw [h]; exact Nat.and_pow_two_sub_one_eq_mod t.y o.binaryOrder
  refine ⟨?_, ?_, ?_, ?_⟩
  · simp [Tilar.Options.index, Tilar.tileIndexOf, Nat.shiftRight_eq_div_pow]
  · simp [Tilar.Options.index, Tilar.tileIndexOf, hx, hy]
  · simp only [Tilar.Options.index, Tilar.tileIndexOf, hx,
      Nat.shiftRight_eq_div_pow]
    rw [Nat.mul_comm]
    exact (Nat.div_add_mod t.x (2 ^ o.binaryOrder)).symm
  · simp only [Tilar.Options.index, Tilar.tileIndexOf, hy,
      Nat.shiftRight_eq_div_pow]
    rw [Nat.mul_comm]
    exact (Nat.div_add_mod t.y (2 ^ o.binaryOrder)).symm

/-- Witness for C1: the map evaluated at a concrete option set and tile. -/
theorem tilar_options_index_spec_witness :
    (⟨4096, 0, 0, 2, 3⟩ : Tilar.Options).tileMask = 2 ^ 2 - 1 ∧
    ((⟨4096, 0, 0, 2, 3⟩ : Tilar.Options).index ⟨5, 13, 6⟩ 1).1 =
      ⟨5, 13 / 2 ^ 2, 6 / 2 ^ 2⟩ := by
  refine ⟨by decide, ?_⟩
  exact (tilar_options_index_spec ⟨4096, 0, 0, 2, 3⟩ ⟨5, 13, 6⟩ 1 (by decide)).1

/-- C2: pasting tile sets A then B into dst leaves, at every tile id present
in A or B, B's tile when B contains it and A's tile otherwise: the last
write wins on conflict and no warning is raised. -/
theorem paste_last_wins {α : Type} (dst A B : Paste.TileSetMap α) (t : TileId)
    (h : (A t).isSome ∨ (B t).isSome) :
    Paste.pasteTileSets dst [A, B] t =
      match B t with
      | some v => some v
      | none => A t := by
  cases hB : B t with
  | some v =>
      simp [Paste.pasteTileSets, Paste.pasteOne, hB]
  | none =>
      cases hA : A t with
      | some v => simp [Paste.pasteTileSets, Paste.pasteOne, hA, hB]
      | none =>
          rcases h with h | h
          · rw [hA] at h; exact absurd h (by simp)
          · rw [hB] at h; exact absurd h (by simp)

/-- Witness for C2: pasting two concrete one-tile sets, the second wins. -/
theorem paste_last_wins_witness :
    (((fun t => if t = ⟨1, 0, 0⟩ then some 7 else none :
        Paste.TileSetMap Nat) ⟨1, 0, 0⟩).isSome ∨
      ((fun t => if t = ⟨1, 0, 0⟩ then some 9 else none :
        Paste.TileSetMap Nat) ⟨1, 0, 0⟩).isSome) ∧
    Paste.pasteTileSets (fun _ => none)
        [fun t => if t = ⟨1, 0, 0⟩ then some 7 else none,
         fun t => if t = ⟨1, 0, 0⟩ then some 9 else none] ⟨1, 0, 0⟩ =
      match (fun t => if t = (⟨1, 0, 0⟩ : TileId) then some 9 else none :
          Paste.TileSetMap Nat) ⟨1, 0, 0⟩ with
      | some v => some v
      | none =>
        (fun t => if t = (⟨1, 0, 0⟩ : TileId) then some 7 else none :
          Paste.TileSetMap Nat) ⟨1, 0, 0⟩ := by
  refine ⟨Or.inl (by decide), ?_⟩
  exact paste_last_wins (fun _ => none)
    (fun t => if t = ⟨1, 0, 0⟩ then some 7 else none)
    (fun t => if t = ⟨1, 0, 0⟩ then some 9 else none)
    ⟨1, 0, 0⟩ (Or.inl (by decide))

/-- C4: for every credit-tile request, the delivery credits operation takes
the credit set directly from the tile-set properties when they list at most
one credit; otherwise the returned set is the union of the credit sets of
the stored metatiles over a prefix of the credit-tile region scan, the
prefix being either the whole region or cut short as soon as the number of
collected credits reaches the number known from the properties. -/
theorem delivery_credits_spec (d : Dlv.DriverM) (indexMeta : TileId → Bool)
    (metaOrder : Nat) (reg : Nat → Bool) (props : Dlv.TileSetProps)
    (t : TileId) (noSuchFile : Bool) (C : Finset Nat) (lm : Int) :
    (Dlv.isCreditId t = true → props.credits.card ≤ 1 →
      Dlv.creditsOp d indexMeta metaOrder reg props t noSuchFile =
        .ok (some (.creditsS (Dlv.extractKnown reg props.credits) (-1)))) ∧
    (1 < props.credits.card →
      Dlv.creditsOp d indexMeta metaOrder reg props t noSuchFile =
        .ok (some (.creditsS C lm)) →
      ∃ pre post,
        Dlv.metaIds (Dlv.creditsIdOf t)
            (2 ^ (Dlv.creditBinaryOrder - metaOrder)) (2 ^ metaOrder) =
          pre ++ post ∧
        C = Dlv.extractKnown reg (Dlv.unionStored d indexMeta pre) ∧
        (post = [] ∨
          props.credits.card ≤ (Dlv.unionStored d indexMeta pre).card)) := by
  constructor
  · intro hc hle
    simp [Dlv.creditsOp, hc, hle]
  · intro hgt h
    have hc : Dlv.isCreditId t = true := by
      cases hcred : Dlv.isCreditId t
      · rw [Dlv.creditsOp, hcred] at h
        cases noSuchFile <;> simp at h
      · rfl
    rw [Dlv.creditsOp, hc] at h
    simp only [Bool.not_true, Bool.false_eq_true, if_false] at h
    rw [if_neg (by omega)] at h
    rw [Dlv.creditsFromMetatiles] at h
    by_cases hbo : Dlv.creditBinaryOrder < metaOrder
    · rw [if_pos hbo] at h
      simp at h
    · rw [if_neg hbo] at h
      cases hres : Dlv.cfmLoop d indexMeta noSuchFile props.credits.card
          (Dlv.metaIds (Dlv.creditsIdOf t)
            (2 ^ (Dlv.creditBinaryOrder - metaOrder)) (2 ^ metaOrder)) ∅ (-1) with
      | error e => rw [hres] at h; simp at h
      | ok triple =>
        obtain ⟨flag, collected, lm0⟩ := triple
        rw [hres] at h
        cases flag
        · simp at h
        · simp only [Except.ok.injEq, Option.some.injEq,
            Dlv.StreamV.creditsS.injEq] at h
          obtain ⟨pre, post, heq, hcoll, hdisj⟩ :=
            Dlv.cfmLoop_ok_true d indexMeta noSuchFile props.credits.card
              _ _ _ _ _ hres
          rw [Finset.empty_union] at hcoll
          refine ⟨pre, post, heq, ?_, ?_⟩
          · rw [← h.1, hcoll]
          · rcases hdisj with hp | hcard
            · exact Or.inl hp
            · exact Or.inr (by rw [← hcoll]; exact hcard)

/-- Witness for C4: the single-credit branch on concrete properties, and a
two-credit scan over a region whose first metatile already carries both
credits (early exit). -/
theorem delivery_credits_spec_witness :
    (Dlv.isCreditId ⟨10, 0, 0⟩ = true ∧ Fix.props1.credits.card ≤ 1 ∧
      Dlv.creditsOp Fix.drvEmpty (fun _ => false) 8 (fun _ => true) Fix.props1
          ⟨10, 0, 0⟩ true =
        .ok (some (.creditsS
          (Dlv.extractKnown (fun _ => true) Fix.props1.credits) (-1)))) ∧
    (1 < Fix.props2.credits.card ∧
      ∃ pre post,
        Dlv.metaIds (Dlv.creditsIdOf ⟨10, 0, 0⟩)
            (2 ^ (Dlv.creditBinaryOrder - 8)) (2 ^ 8) = pre ++ post ∧
        Dlv.extractKnown (fun _ => true) (Dlv.insertAll [1, 2] ∅) =
          Dlv.extractKnown (fun _ => true)
            (Dlv.unionStored Fix.drv1 (fun _ => true) pre) ∧
        (post = [] ∨
          Fix.props2.credits.card ≤
            (Dlv.unionStored Fix.drv1 (fun _ => true) pre).card)) := by
  constructor
  · refine ⟨by decide, by decide, ?_⟩
    exact (delivery_credits_spec Fix.drvEmpty (fun _ => false) 8
      (fun _ => true) Fix.props1 ⟨10, 0, 0⟩ true ∅ 0).1 (by decide) (by decide)
  · refine ⟨by decide, ?_⟩
    exact (delivery_credits_spec Fix.drv1 (fun _ => true) 8
      (fun _ => true) Fix.props2 ⟨10, 0, 0⟩ true
      (Dlv.extractKnown (fun _ => true) (Dlv.insertAll [1, 2] ∅)) 5).2
      (by decide) (by decide)

/-- C5: the claimed not-found dichotomy (null stream with the
NullWhenNotFound marker, NoSuchFile otherwise) holds for the synthesised 2d
meta and credit tiles with an invalid tile id and for the throwing config
read, but fails on the File::config key in the NullWhenNotFound variant:
there the source feeds the null driver stream straight into filterConfig,
which dereferences it, so the read neither returns a null stream nor throws
NoSuchFile. -/
theorem delivery_notfound_dichotomy_bug :
    Dlv.deliveryInputFileN Fix.drvEmpty .config = .error .nullDeref ∧
    Dlv.deliveryInputFileN Fix.drvEmpty .config ≠ .ok none ∧
    Dlv.deliveryInputFile Fix.drvEmpty .config = .error .noSuchFile ∧
    Dlv.deliveryInputTile Fix.dlEmpty ⟨8, 1, 0⟩ .meta2d .raw =
      .error .noSuchFile ∧
    Dlv.deliveryInputTileN Fix.dlEmpty ⟨8, 1, 0⟩ .meta2d .raw = .ok none ∧
    Dlv.deliveryInputTile Fix.dlEmpty ⟨8, 1, 0⟩ .credits .raw =
      .error .noSuchFile ∧
    Dlv.deliveryInputTileN Fix.dlEmpty ⟨8, 1, 0⟩ .credits .raw = .ok none := by
  decide

/-- C6: for a tile with no stored mesh the delivery mask operation in debug
flavor returns the transparent placeholder stream in both input variants,
whereas outside debug flavor the same request follows the not-found
behaviour: NoSuchFile in the plain variant, a null stream in the
NullWhenNotFound variant. -/
theorem delivery_mask_debug_placeholder (dl : Dlv.DeliveryM) (t : TileId)
    (flavor : Dlv.FileFlavor) (h : dl.driver.meshStream t = none) :
    Dlv.deliveryInputTile dl t .mask .debug = .ok (some .emptyDebugMask) ∧
    Dlv.deliveryInputTileN dl t .mask .debug = .ok (some .emptyDebugMask) ∧
    (flavor ≠ .debug →
      Dlv.deliveryInputTile dl t .mask flavor = .error .noSuchFile ∧
      Dlv.deliveryInputTileN dl t .mask flavor = .ok none) := by
  refine ⟨?_, ?_, ?_⟩
  · simp [Dlv.deliveryInputTile, Dlv.maskOp, Dlv.DriverM.fetchMesh, h]
  · simp [Dlv.deliveryInputTileN, Dlv.maskOp, Dlv.DriverM.fetchMesh, h]
  · intro hf
    have hr : flavor = Dlv.FileFlavor.raw := by
      cases flavor
      · rfl
      · exact absurd rfl hf
    subst hr
    constructor
    · simp [Dlv.deliveryInputTile, Dlv.maskOp, Dlv.DriverM.fetchMesh, h]
    · simp [Dlv.deliveryInputTileN, Dlv.maskOp, Dlv.DriverM.fetchMesh, h]

/-- Witness for C6: a concrete delivery with no mesh anywhere serves the
debug placeholder. -/
theorem delivery_mask_debug_placeholder_witness :
    Fix.dlEmpty.driver.meshStream ⟨5, 1, 1⟩ = none ∧
    Dlv.deliveryInputTile Fix.dlEmpty ⟨5, 1, 1⟩ .mask .debug =
      .ok (some .emptyDebugMask) := by
  refine ⟨rfl, ?_⟩
  exact (delivery_mask_debug_placeholder Fix.dlEmpty ⟨5, 1, 1⟩ .raw rfl).1

/-- C9: the config served through Delivery parses to the stored properties
with the driver-specific options emptied, and every other config field is
unchanged by the filtering. -/
theorem delivery_config_filter (d : Dlv.DriverM) (p : Dlv.TileSetProps)
    (h : d.configProps = some p) :
    Dlv.deliveryInputFile d .config =
      .ok (some (.configS (Dlv.filterConfigProps p))) ∧
    Dlv.deliveryInputFileN d .config =
      .ok (some (.configS (Dlv.filterConfigProps p))) ∧
    (Dlv.filterConfigProps p).id = p.id ∧
    (Dlv.filterConfigProps p).referenceFrame = p.referenceFrame ∧
    (Dlv.filterConfigProps p).lodRangeMin = p.lodRangeMin ∧
    (Dlv.filterConfigProps p).lodRangeMax = p.lodRangeMax ∧
    (Dlv.filterConfigProps p).position = p.position ∧
    (Dlv.filterConfigProps p).credits = p.credits ∧
    (Dlv.filterConfigProps p).boundLayers = p.boundLayers ∧
    (Dlv.filterConfigProps p).driverOptions = none := by
  refine ⟨?_, ?_, rfl, rfl, rfl, rfl, rfl, rfl, rfl, rfl⟩
  · simp [Dlv.deliveryInputFile, Dlv.DriverM.inputConfigT, h, Dlv.filterConfig]
  · simp [Dlv.deliveryInputFileN, h, Dlv.filterConfig]

/-- Witness for C9: the concrete driver whose config parses to props2. -/
theorem delivery_config_filter_witness :
    Fix.drvCfg.configProps = some Fix.props2 ∧
    Dlv.deliveryInputFile Fix.drvCfg .config =
      .ok (some (.configS (Dlv.filterConfigProps Fix.props2))) := by
  refine ⟨rfl, ?_⟩
  exact (delivery_config_filter Fix.drvCfg Fix.props2 rfl).1

namespace Hm

theorem rasterPoint_eq (hm : Grid) (s : Sample) (p : Pixel) :
    rasterPoint hm s p =
      if p = s.px then min (hm p) (s.z : WithTop ℚ) else hm p := by
  unfold rasterPoint
  by_cases hp : p = s.px
  · rw [if_pos hp]
    by_cases hz : (s.z : WithTop ℚ) < hm p
    · rw [if_pos ⟨hp, hz⟩]
      exact (min_eq_right (le_of_lt hz)).symm
    · rw [if_neg (fun hc => hz hc.2)]
      exact (min_eq_left (le_of_not_lt hz)).symm
  · rw [if_neg hp, if_neg (fun hc => hp hc.1)]

theorem rasterizeSamples_eq (samples : List Sample) :
    ∀ (hm : Grid) (p : Pixel),
      rasterizeSamples hm samples p = minFold (hm p) (heightsAt p samples) := by
  induction samples with
  | nil => intro hm p; rfl
  | cons s rest ih =>
    intro hm p
    have h1 : rasterizeSamples hm (s :: rest) =
        rasterizeSamples (rasterPoint hm s) rest := rfl
    rw [h1, ih]
    by_cases hp : p = s.px
    · have h2 : heightsAt p (s :: rest) = s.z :: heightsAt p rest := by
        simp [heightsAt, hp]
      rw [h2, rasterPoint_eq, if_pos hp]
      rfl
    · have hp2 : ¬ (s.px = p) := fun hh => hp hh.symm
      have h2 : heightsAt p (s :: rest) = heightsAt p rest := by
        simp [heightsAt, hp2]
      rw [h2, rasterPoint_eq, if_neg hp]

theorem minFold_append (v : WithTop ℚ) (l1 l2 : List ℚ) :
    minFold v (l1 ++ l2) = minFold (minFold v l1) l2 := by
  simp [minFold, List.foldl_append]

theorem heightsAt_append (p : Pixel) (l1 l2 : List Sample) :
    heightsAt p (l1 ++ l2) = heightsAt p l1 ++ heightsAt p l2 := by
  simp [heightsAt, List.filterMap_append]

theorem generateHeightMap_tile (a : Accumulator) (id : TileId)
    (samples : List Sample) :
    (generateHeightMap a id samples).tile id =
      rasterizeSamples (a.tile id) samples := by
  simp [generateHeightMap, Accumulator.tile]

theorem generateHeightMapSeq_tile (id : TileId) :
    ∀ (meshes : List (List Sample)) (a : Accumulator) (p : Pixel),
      (generateHeightMapSeq a id meshes).tile id p =
        minFold (a.tile id p) (heightsAt p meshes.flatten) := by
  intro meshes
  induction meshes with
  | nil => intro a p; rfl
  | cons ms rest ih =>
    intro a p
    have h1 : generateHeightMapSeq a id (ms :: rest) =
        generateHeightMapSeq (generateHeightMap a id ms) id rest := rfl
    rw [h1, ih, generateHeightMap_tile, rasterizeSamples_eq,
      List.flatten_cons, heightsAt_append, minFold_append]

end Hm

namespace NI

theorem outsideE_iff (v e : Extents2) (hv : nonemptyE v) (he : nonemptyE e) :
    outsideE v e ↔ ∀ p, memE p e → ¬ memE p v := by
  constructor
  · rintro h p hpe hpv
    obtain ⟨he1, he2, he3, he4⟩ := hpe
    obtain ⟨hv1, hv2, hv3, hv4⟩ := hpv
    rcases h with h | h | h | h <;> linarith
  · intro h
    by_contra ho
    unfold outsideE at ho
    push_neg at ho
    obtain ⟨h1, h2, h3, h4⟩ := ho
    exact h (max e.x1 v.x1, max e.y1 v.y1)
      ⟨le_max_left _ _, max_le he.1 h1, le_max_left _ _, max_le he.2 h3⟩
      ⟨le_max_right _ _, max_le h2 hv.1, le_max_right _ _, max_le h4 hv.2⟩

theorem insideE_iff (v e : Extents2) (he : nonemptyE e) :
    insideE v e ↔ ∀ p, memE p e → memE p v := by
  constructor
  · rintro ⟨h1, h2, h3, h4⟩ p ⟨p1, p2, p3, p4⟩
    exact ⟨by linarith, by linarith, by linarith, by linarith⟩
  · intro h
    have c1 := h (e.x1, e.y1) ⟨le_refl _, he.1, le_refl _, he.2⟩
    have c2 := h (e.x2, e.y2) ⟨he.1, le_refl _, he.2, le_refl _⟩
    exact ⟨c1.1, c2.2.1, c1.2.2.1, c2.2.2.2⟩

end NI

/-- C7: for nonempty valid bounds and node extents, the computed node state
is exactly one of three (a node set partly-inside is never invalid), and the
states match geometry: invalid exactly when the node lies fully outside the
valid bounds, full exactly when it lies fully inside, and the partly-inside
state exactly when some of the node is inside and some outside. -/
theorem nodeinfo_validity_trichotomy (v e : NI.Extents2)
    (hv : NI.nonemptyE v) (he : NI.nonemptyE e) :
    (¬ ((NI.mkNodeInfoState v e).validFlag = false ∧
        (NI.mkNodeInfoState v e).partFlag = true)) ∧
    (NI.mkNodeInfoState v e = ⟨false, false⟩ ↔
      ∀ p, NI.memE p e → ¬ NI.memE p v) ∧
    (NI.mkNodeInfoState v e = ⟨true, false⟩ ↔
      ∀ p, NI.memE p e → NI.memE p v) ∧
    (NI.mkNodeInfoState v e = ⟨true, true⟩ ↔
      ((∃ p, NI.memE p e ∧ NI.memE p v) ∧
       (∃ p, NI.memE p e ∧ ¬ NI.memE p v))) := by
  have hOI := NI.outsideE_iff v e hv he
  have hII := NI.insideE_iff v e he
  by_cases ho : NI.outsideE v e
  · have hs : NI.mkNodeInfoState v e = ⟨false, false⟩ := by
      simp [NI.mkNodeInfoState, NI.subtreeValid, ho]
    rw [hs]
    refine ⟨by decide, iff_of_true rfl (hOI.mp ho), ?_, ?_⟩
    · apply iff_of_false (by decide)
      intro hall
      have hmem : NI.memE (e.x1, e.y1) e := ⟨le_refl _, he.1, le_refl _, he.2⟩
      exact (hOI.mp ho) _ hmem (hall _ hmem)
    · apply iff_of_false (by decide)
      rintro ⟨⟨p, hpe, hpv⟩, -⟩
      exact (hOI.mp ho) p hpe hpv
  · by_cases hi : NI.insideE v e
    · have hs : NI.mkNodeInfoState v e = ⟨true, false⟩ := by
        simp [NI.mkNodeInfoState, NI.subtreeValid, ho, hi]
      rw [hs]
      refine ⟨by decide, ?_, iff_of_true rfl (hII.mp hi), ?_⟩
      · apply iff_of_false (by decide)
        intro hall
        exact ho (hOI.mpr hall)
      · apply iff_of_false (by decide)
        rintro ⟨-, p, hpe, hpv⟩
        exact hpv (hII.mp hi p hpe)
    · have hs : NI.mkNodeInfoState v e = ⟨true, true⟩ := by
        simp [NI.mkNodeInfoState, NI.subtreeValid, ho, hi]
      rw [hs]
      refine ⟨by decide, ?_, ?_, ?_⟩
      · apply iff_of_false (by decide)
        intro hall
        exact ho (hOI.mpr hall)
      · apply iff_of_false (by decide)
        intro hall
        exact hi (hII.mpr hall)
      · apply iff_of_true rfl
        constructor
        · by_contra hno
          push_neg at hno
          exact ho (hOI.mpr (fun p hpe hpv => hno p hpe hpv))
        · have hni : ¬ ∀ p, NI.memE p e → NI.memE p v :=
            fun hall => hi (hII.mpr hall)
          push_neg at hni
          obtain ⟨p, hpe, hpv⟩ := hni
          exact ⟨p, hpe, hpv⟩

/-- Witness for C7: a node box fully inside concrete valid bounds. -/
theorem nodeinfo_validity_trichotomy_witness :
    NI.nonemptyE ⟨0, 10, 0, 10⟩ ∧ NI.nonemptyE ⟨2, 3, 2, 3⟩ ∧
    ¬ ((NI.mkNodeInfoState ⟨0, 10, 0, 10⟩ ⟨2, 3, 2, 3⟩).validFlag = false ∧
       (NI.mkNodeInfoState ⟨0, 10, 0, 10⟩ ⟨2, 3, 2, 3⟩).partFlag = true) := by
  refine ⟨⟨by norm_num, by norm_num⟩, ⟨by norm_num, by norm_num⟩, ?_⟩
  exact (nodeinfo_validity_trichotomy ⟨0, 10, 0, 10⟩ ⟨2, 3, 2, 3⟩
    ⟨by norm_num, by norm_num⟩ ⟨by norm_num, by norm_num⟩).1

/-- C8: every pixel of a height-map tile starts at the top sentinel, after
rasterising any sequence of meshes into a tile each pixel's value is the
minimum of its previous value and all heights rasterised onto it, and a
pixel touched by no sample keeps its previous value (the sentinel for a
fresh tile). -/
theorem encoder_heightmap_min (a : Hm.Accumulator) (id : TileId)
    (meshes : List (List Hm.Sample)) (p : Hm.Pixel) :
    Hm.freshGrid p = ⊤ ∧
    (⟨fun _ => none⟩ : Hm.Accumulator).tile id p = ⊤ ∧
    (Hm.generateHeightMapSeq a id meshes).tile id p =
      Hm.minFold (a.tile id p) (Hm.heightsAt p meshes.flatten) ∧
    (Hm.heightsAt p meshes.flatten = [] →
      (Hm.generateHeightMapSeq a id meshes).tile id p = a.tile id p) := by
  refine ⟨rfl, rfl, Hm.generateHeightMapSeq_tile id meshes a p, ?_⟩
  intro hempty
  rw [Hm.generateHeightMapSeq_tile id meshes a p, hempty]
  rfl

/-- Witness for C8: rasterising two samples onto one pixel keeps the
minimum; an untouched accumulator keeps its value. -/
theorem encoder_heightmap_min_witness :
    Hm.heightsAt (1, 2) ([] : List (List Hm.Sample)).flatten = [] ∧
    (Hm.generateHeightMapSeq ⟨fun _ => none⟩ ⟨0, 0, 0⟩ []).tile
        ⟨0, 0, 0⟩ (1, 2) =
      (⟨fun _ => none⟩ : Hm.Accumulator).tile ⟨0, 0, 0⟩ (1, 2) := by
  refine ⟨rfl, ?_⟩
  exact (encoder_heightmap_min ⟨fun _ => none⟩ ⟨0, 0, 0⟩ [] (1, 2)).2.2.2 rfl

/-- C10: compatible(ni1, ni2) holds exactly when both NodeInfos refer to the
same reference-frame subtree root object (pointer identity of the root
RFNode); two NodeInfos whose roots hold equal node content at distinct
addresses are reported incompatible. -/
theorem nodeinfo_compatible_identity (ar : NI.RFArena) (n1 n2 : NI.NodeInfoC) :
    (NI.compatible n1 n2 = true ↔
      n1.subtree.rootAddr = n2.subtree.rootAddr) ∧
    (ar.node n1.subtree.rootAddr = ar.node n2.subtree.rootAddr →
      n1.subtree.rootAddr ≠ n2.subtree.rootAddr →
      NI.compatible n1 n2 = false) := by
  constructor
  · simp [NI.compatible, NI.subtreeBeq]
  · intro _ hne
    simp [NI.compatible, NI.subtreeBeq, hne]

/-- Witness for C10: an arena assigning equal content to the distinct
addresses 0 and 1; the two NodeInfos are incompatible nevertheless. -/
theorem nodeinfo_compatible_identity_witness :
    (⟨fun _ => ⟨0, 0, 0, 1⟩⟩ : NI.RFArena).node 0 =
      (⟨fun _ => ⟨0, 0, 0, 1⟩⟩ : NI.RFArena).node 1 ∧
    ((⟨⟨0⟩⟩ : NI.NodeInfoC).subtree.rootAddr ≠
      (⟨⟨1⟩⟩ : NI.NodeInfoC).subtree.rootAddr) ∧
    NI.compatible ⟨⟨0⟩⟩ ⟨⟨1⟩⟩ = false := by
  refine ⟨rfl, by decide, ?_⟩
  exact (nodeinfo_compatible_identity ⟨fun _ => ⟨0, 0, 0, 1⟩⟩ ⟨⟨0⟩⟩ ⟨⟨1⟩⟩).2
    rfl (by decide)

end VtsLibs
